import Mathlib

/-!
Verification of the diagnose route handler of euro-diagnostic-ai.

The development shallowly embeds the two source files:
- `app/src/app/api/diagnose/route.ts` (the `POST` handler with its helpers
  `stripJsonFences`, `extractFirstJsonObject`, `zodErrToShortString`), and
- `app/src/lib/diagnosticSchema.ts` (the zod schemas `DiagnosticInputSchema`
  and `DiagnosticPlanSchema`).

Strings are modelled at the character-list level where the code manipulates
text (regex replacement, brace slicing, trimming); JSON values are modelled
by an inductive `Json` type; zod parsing is modelled by executable functions
returning `Except (List ZodIssue) _` that accumulate issues in schema order,
as zod does.  The outbound text-generation provider is a parameter
`gen : String → String` mapping the prompt sent to the raw text returned;
the handler records the list of prompts it sent, which models the sequence
of outbound model-completion calls.
-/

set_option maxRecDepth 20000

/-- The backtick character (code point 96), written via `Char.ofNat`. -/
def tick : Char := Char.ofNat 96

/-- The opening-brace character (code point 123). -/
def lbrace : Char := Char.ofNat 123

/-- The closing-brace character (code point 125). -/
def rbrace : Char := Char.ofNat 125

/-- Model of the JavaScript regex class `\s` restricted to the ASCII range
(space, tab, line feed, vertical tab, form feed, carriage return); the same
class underlies `String.prototype.trim`. -/
def isWS (c : Char) : Bool :=
  c = ' ' || c = '\t' || c = '\n' || c = '\x0b' || c = '\x0c' || c = '\r'

/-- Model of `Array.prototype.join(sep)` on an array of strings. -/
def joinSep (sep : String) : List String → String
  | [] => ""
  | [x] => x
  | x :: y :: rest => x ++ sep ++ joinSep sep (y :: rest)

/-- Model of `String.prototype.trim` on character lists. -/
def trimChars (l : List Char) : List Char :=
  ((l.dropWhile isWS).reverse.dropWhile isWS).reverse

/-- One global pass of `replace(/``` json\s*/gi, "")` (spaces added here to
keep this comment inert; the regex is three backticks, the letters json case
insensitively, then greedy whitespace).  The fuel argument is decremented on
every step; since every step consumes at least one character, fuel
`l.length + 1` always suffices, and `stripJsonTag` below supplies it. -/
def stripJsonTagF : Nat → List Char → List Char
  | 0, l => l
  | _ + 1, [] => []
  | f + 1, a :: b :: c :: d :: e :: g :: h :: rest =>
    if a = tick ∧ b = tick ∧ c = tick ∧
        d.toLower = 'j' ∧ e.toLower = 's' ∧ g.toLower = 'o' ∧ h.toLower = 'n' then
      stripJsonTagF f (rest.dropWhile isWS)
    else
      a :: stripJsonTagF f (b :: c :: d :: e :: g :: h :: rest)
  | _ + 1, l => l

/-- Global removal of the fenced-json marker, fuel instantiated. -/
def stripJsonTag (l : List Char) : List Char :=
  stripJsonTagF (l.length + 1) l

/-- One global pass of `replace(/``` /g, "")` (the regex is exactly three
backticks): removes every occurrence of three consecutive backticks,
scanning left to right as the JavaScript regex engine does. -/
def stripTicks : List Char → List Char
  | a :: b :: c :: rest =>
    if a = tick ∧ b = tick ∧ c = tick then stripTicks rest
    else a :: stripTicks (b :: c :: rest)
  | l => l

/-- Function `stripJsonFences` from route.ts (lines 9-14): removes ```` ```json ````
markers (with trailing whitespace), then all ```` ``` ```` fences, then
trims, at the character-list level. -/
def stripJsonFencesL (l : List Char) : List Char :=
  trimChars (stripTicks (stripJsonTag l))

/-- Wrapper for `stripJsonFences` on strings. -/
def stripJsonFences (s : String) : String :=
  ⟨stripJsonFencesL s.data⟩

/-- Model of `String.prototype.indexOf` for a single character: index of the
first occurrence, `none` when absent (JavaScript returns -1). -/
def indexOfAux (c : Char) : List Char → Nat → Option Nat
  | [], _ => none
  | x :: xs, i => if x = c then some i else indexOfAux c xs (i + 1)

/-- Model of `String.prototype.lastIndexOf` for a single character. -/
def lastIndexOfAux (c : Char) : List Char → Nat → Option Nat → Option Nat
  | [], _, acc => acc
  | x :: xs, i, acc => lastIndexOfAux c xs (i + 1) (if x = c then some i else acc)

/-- Function `extractFirstJsonObject` from route.ts (lines 17-22): grabs the slice
from the first opening brace to the last closing brace inclusive, `none`
when either is absent or the last closing brace does not lie strictly after
the first opening brace. -/
def extractFirstJsonObjectL (l : List Char) : Option (List Char) :=
  match indexOfAux lbrace l 0, lastIndexOfAux rbrace l 0 none with
  | some s, some e => if e ≤ s then none else some ((l.drop s).take (e + 1 - s))
  | _, _ => none

/-- Wrapper for `extractFirstJsonObject` on strings. -/
def extractFirstJsonObject (s : String) : Option String :=
  (extractFirstJsonObjectL s.data).map fun l => ⟨l⟩

/-- JSON values as produced by `JSON.parse`.  Object fields keep textual
order; duplicate keys are resolved by last-wins lookup, as in JavaScript.
Numeric literals are modelled as integers: no numeric field occurs in the
schemas under verification. -/
inductive Json where
  | null : Json
  | bool (b : Bool) : Json
  | num (n : Int) : Json
  | str (s : String) : Json
  | arr (items : List Json) : Json
  | obj (fields : List (String × Json)) : Json

/-- The JavaScript `typeof`-style type name zod reports for a JSON value. -/
def jsTypeName : Json → String
  | .null => "null"
  | .bool _ => "boolean"
  | .num _ => "number"
  | .str _ => "string"
  | .arr _ => "array"
  | .obj _ => "object"

/-- Property access `o[k]` on a parsed JSON object field list: the last
binding wins, as for duplicate keys in `JSON.parse`. -/
def getField (fields : List (String × Json)) (k : String) : Option Json :=
  (fields.reverse.find? fun p => p.1 == k).map fun p => p.2

deriving instance DecidableEq for Except

/-- A single zod validation issue: the access path (array indices rendered
in decimal, as `Array.prototype.join` does) and the human-readable message,
the two pieces `zodErrToShortString` consumes. -/
structure ZodIssue where
  path : List String
  message : String
deriving DecidableEq

/-- Accumulating combination of two fallible parses: zod collects the
issues of every field of an object (and every element of an array) rather
than stopping at the first, concatenating them in schema order. -/
def comb {α β : Type} :
    Except (List ZodIssue) α → Except (List ZodIssue) β →
    Except (List ZodIssue) (α × β)
  | .ok a, .ok b => .ok (a, b)
  | .error e, .ok _ => .error e
  | .ok _, .error e => .error e
  | .error e, .error e' => .error (e ++ e')

/-- Parse for `z.string()` on an object field: `none` is a missing key. -/
def pString (path : List String) : Option Json → Except (List ZodIssue) String
  | none => .error [⟨path, "Required"⟩]
  | some (.str s) => .ok s
  | some v => .error [⟨path, "Expected string, received " ++ jsTypeName v⟩]

/-- Parse for `z.boolean()` on an object field. -/
def pBool (path : List String) : Option Json → Except (List ZodIssue) Bool
  | none => .error [⟨path, "Required"⟩]
  | some (.bool b) => .ok b
  | some v => .error [⟨path, "Expected boolean, received " ++ jsTypeName v⟩]

/-- Parse for `z.string().nullable()` on an object field. -/
def pNullableString (path : List String) :
    Option Json → Except (List ZodIssue) (Option String)
  | none => .error [⟨path, "Required"⟩]
  | some .null => .ok none
  | some (.str s) => .ok (some s)
  | some v => .error [⟨path, "Expected string, received " ++ jsTypeName v⟩]

/-- Parse for `z.enum(["en", "es"])` on a required object field; the exact message
text models the zod invalid-enum report. -/
def pLang (path : List String) : Option Json → Except (List ZodIssue) String
  | none => .error [⟨path, "Required"⟩]
  | some (.str "en") => .ok "en"
  | some (.str "es") => .ok "es"
  | some (.str other) =>
    .error [⟨path, "Invalid enum value. Expected en | es, received " ++ other⟩]
  | some v => .error [⟨path, "Expected en | es, received " ++ jsTypeName v⟩]

/-- Element-wise validation of an array, threading the element index into
the issue path and accumulating issues across elements, as zod does. -/
def pListIdx {α : Type} (f : Nat → Json → Except (List ZodIssue) α) :
    Nat → List Json → Except (List ZodIssue) (List α)
  | _, [] => .ok []
  | i, x :: xs =>
    match comb (f i x) (pListIdx f (i + 1) xs) with
    | .ok (a, rest) => .ok (a :: rest)
    | .error e => .error e

/-- Parse for `z.array(z.string())` on an object field. -/
def pStringArray (path : List String) :
    Option Json → Except (List ZodIssue) (List String)
  | none => .error [⟨path, "Required"⟩]
  | some (.arr items) =>
    pListIdx (fun i x => pString (path ++ [toString i]) (some x)) 0 items
  | some v => .error [⟨path, "Expected array, received " ++ jsTypeName v⟩]

/-- Parse for `z.string().optional().default("")`: a missing key yields the empty
string, a present key must be a string. -/
def pOptString : List String → Option Json → Except (List ZodIssue) String
  | _, none => .ok ""
  | path, some j => pString path (some j)

/-- Parse for `z.enum(["en", "es"]).default("en")`: a missing key yields `"en"`. -/
def pOptLang : List String → Option Json → Except (List ZodIssue) String
  | _, none => .ok "en"
  | path, some j => pLang path (some j)

/-- Structure `DiagnosticInput`, the inferred type of `DiagnosticInputSchema`. -/
structure DiagnosticInput where
  make : String
  model : String
  year : String
  engine : String
  dtcs : List String
  symptom : String
  notes : String
  language : String
  sessionId : String
  vin : String
  mileage : String
deriving DecidableEq

/-- Schema `DiagnosticInputSchema` (diagnosticSchema.ts lines 21-33) as a parse
function on JSON values, accumulating issues in declaration order. -/
def DiagnosticInputSchema.safeParse (j : Json) :
    Except (List ZodIssue) DiagnosticInput :=
  match j with
  | .obj fields =>
    match comb (pString ["make"] (getField fields "make"))
        (comb (pString ["model"] (getField fields "model"))
        (comb (pString ["year"] (getField fields "year"))
        (comb (pString ["engine"] (getField fields "engine"))
        (comb (pStringArray ["dtcs"] (getField fields "dtcs"))
        (comb (pString ["symptom"] (getField fields "symptom"))
        (comb (pOptString ["notes"] (getField fields "notes"))
        (comb (pOptLang ["language"] (getField fields "language"))
        (comb (pOptString ["sessionId"] (getField fields "sessionId"))
        (comb (pOptString ["vin"] (getField fields "vin"))
              (pOptString ["mileage"] (getField fields "mileage"))))))))))) with
    | .ok (mk, md, yr, eg, dt, sy, no, la, se, vi, mi) =>
      .ok ⟨mk, md, yr, eg, dt, sy, no, la, se, vi, mi⟩
    | .error e => .error e
  | _ => .error [⟨[], "Expected object, received " ++ jsTypeName j⟩]

/-- The bilingual text helper `BilingualText` of diagnosticSchema.ts. -/
structure BilingualText where
  en : String
  es : String
deriving DecidableEq

/-- The bilingual string-list helper `BilingualTextArray`. -/
structure BilingualTextArray where
  en : List String
  es : List String
deriving DecidableEq

/-- The nested `vehicle` object of `DiagnosticPlanSchema`. -/
structure Vehicle where
  make : String
  model : String
  year : String
  engine : String
  vin : String
  mileage : String
deriving DecidableEq

/-- The nested `concern` object of `DiagnosticPlanSchema`. -/
structure Concern where
  dtcs : List String
  symptom : String
  notes : String
deriving DecidableEq

/-- An element of the `specs.items` array of `DiagnosticPlanSchema`. -/
structure SpecItem where
  name : BilingualText
  expectedRange : String
  unit : String
  note : BilingualText
  estimated : Bool
deriving DecidableEq

/-- The nested `specs` object of `DiagnosticPlanSchema`. -/
structure Specs where
  labeledAsEstimated : Bool
  items : List SpecItem
deriving DecidableEq

/-- An element of a `connectorHints` array. -/
structure ConnectorHint where
  label : BilingualText
  test : BilingualText
  expectedRange : String
  estimated : Bool
  notes : BilingualText
deriving DecidableEq

/-- An element of the `steps` array of `DiagnosticPlanSchema`. -/
structure PlanStep where
  id : String
  title : BilingualText
  purpose : BilingualText
  procedure : BilingualTextArray
  connectorHints : List ConnectorHint
  passCriteria : BilingualTextArray
  failCriteria : BilingualTextArray
  nextOnPass : Option String
  nextOnFail : Option String
deriving DecidableEq

/-- Structure `DiagnosticPlan`, the inferred type of `DiagnosticPlanSchema`. -/
structure DiagnosticPlan where
  version : String
  language : String
  vehicle : Vehicle
  concern : Concern
  overview : BilingualText
  disclaimers : BilingualText
  safetyNotes : BilingualTextArray
  specs : Specs
  steps : List PlanStep
  firstStepId : String
  sessionId : String
deriving DecidableEq

/-- Helper `BilingualText` as a parse function, used at a given path. -/
def pBilingualText (path : List String) :
    Option Json → Except (List ZodIssue) BilingualText
  | none => .error [⟨path, "Required"⟩]
  | some (.obj fields) =>
    match comb (pString (path ++ ["en"]) (getField fields "en"))
        (pString (path ++ ["es"]) (getField fields "es")) with
    | .ok (en, es) => .ok ⟨en, es⟩
    | .error e => .error e
  | some v => .error [⟨path, "Expected object, received " ++ jsTypeName v⟩]

/-- Helper `BilingualTextArray` as a parse function, used at a given path. -/
def pBilingualTextArray (path : List String) :
    Option Json → Except (List ZodIssue) BilingualTextArray
  | none => .error [⟨path, "Required"⟩]
  | some (.obj fields) =>
    match comb (pStringArray (path ++ ["en"]) (getField fields "en"))
        (pStringArray (path ++ ["es"]) (getField fields "es")) with
    | .ok (en, es) => .ok ⟨en, es⟩
    | .error e => .error e
  | some v => .error [⟨path, "Expected object, received " ++ jsTypeName v⟩]

/-- The `vehicle` object schema as a parse function. -/
def pVehicle (path : List String) :
    Option Json → Except (List ZodIssue) Vehicle
  | none => .error [⟨path, "Required"⟩]
  | some (.obj fields) =>
    match comb (pString (path ++ ["make"]) (getField fields "make"))
        (comb (pString (path ++ ["model"]) (getField fields "model"))
        (comb (pString (path ++ ["year"]) (getField fields "year"))
        (comb (pString (path ++ ["engine"]) (getField fields "engine"))
        (comb (pString (path ++ ["vin"]) (getField fields "vin"))
              (pString (path ++ ["mileage"]) (getField fields "mileage")))))) with
    | .ok (mk, md, yr, eg, vi, mi) => .ok ⟨mk, md, yr, eg, vi, mi⟩
    | .error e => .error e
  | some v => .error [⟨path, "Expected object, received " ++ jsTypeName v⟩]

/-- The `concern` object schema as a parse function. -/
def pConcern (path : List String) :
    Option Json → Except (List ZodIssue) Concern
  | none => .error [⟨path, "Required"⟩]
  | some (.obj fields) =>
    match comb (pStringArray (path ++ ["dtcs"]) (getField fields "dtcs"))
        (comb (pString (path ++ ["symptom"]) (getField fields "symptom"))
              (pString (path ++ ["notes"]) (getField fields "notes"))) with
    | .ok (dt, sy, no) => .ok ⟨dt, sy, no⟩
    | .error e => .error e
  | some v => .error [⟨path, "Expected object, received " ++ jsTypeName v⟩]

/-- An element of `specs.items` as a parse function. -/
def pSpecItem (path : List String) (j : Json) :
    Except (List ZodIssue) SpecItem :=
  match j with
  | .obj fields =>
    match comb (pBilingualText (path ++ ["name"]) (getField fields "name"))
        (comb (pString (path ++ ["expectedRange"]) (getField fields "expectedRange"))
        (comb (pString (path ++ ["unit"]) (getField fields "unit"))
        (comb (pBilingualText (path ++ ["note"]) (getField fields "note"))
              (pBool (path ++ ["estimated"]) (getField fields "estimated"))))) with
    | .ok (nm, er, un, no, es) => .ok ⟨nm, er, un, no, es⟩
    | .error e => .error e
  | v => .error [⟨path, "Expected object, received " ++ jsTypeName v⟩]

/-- The `specs` object schema as a parse function. -/
def pSpecs (path : List String) :
    Option Json → Except (List ZodIssue) Specs
  | none => .error [⟨path, "Required"⟩]
  | some (.obj fields) =>
    match comb (pBool (path ++ ["labeledAsEstimated"]) (getField fields "labeledAsEstimated"))
        (match getField fields "items" with
          | none => .error [⟨path ++ ["items"], "Required"⟩]
          | some (.arr items) =>
            pListIdx (fun i x => pSpecItem (path ++ ["items", toString i]) x) 0 items
          | some v =>
            .error [⟨path ++ ["items"], "Expected array, received " ++ jsTypeName v⟩]) with
    | .ok (lb, it) => .ok ⟨lb, it⟩
    | .error e => .error e
  | some v => .error [⟨path, "Expected object, received " ++ jsTypeName v⟩]

/-- An element of `connectorHints` as a parse function. -/
def pConnectorHint (path : List String) (j : Json) :
    Except (List ZodIssue) ConnectorHint :=
  match j with
  | .obj fields =>
    match comb (pBilingualText (path ++ ["label"]) (getField fields "label"))
        (comb (pBilingualText (path ++ ["test"]) (getField fields "test"))
        (comb (pString (path ++ ["expectedRange"]) (getField fields "expectedRange"))
        (comb (pBool (path ++ ["estimated"]) (getField fields "estimated"))
              (pBilingualText (path ++ ["notes"]) (getField fields "notes"))))) with
    | .ok (lb, te, er, es, no) => .ok ⟨lb, te, er, es, no⟩
    | .error e => .error e
  | v => .error [⟨path, "Expected object, received " ++ jsTypeName v⟩]

/-- An element of `steps` as a parse function. -/
def pPlanStep (path : List String) (j : Json) :
    Except (List ZodIssue) PlanStep :=
  match j with
  | .obj fields =>
    match comb (pString (path ++ ["id"]) (getField fields "id"))
        (comb (pBilingualText (path ++ ["title"]) (getField fields "title"))
        (comb (pBilingualText (path ++ ["purpose"]) (getField fields "purpose"))
        (comb (pBilingualTextArray (path ++ ["procedure"]) (getField fields "procedure"))
        (comb (match getField fields "connectorHints" with
          | none => .error [⟨path ++ ["connectorHints"], "Required"⟩]
          | some (.arr hints) =>
            pListIdx (fun i x => pConnectorHint (path ++ ["connectorHints", toString i]) x) 0 hints
          | some v =>
            .error [⟨path ++ ["connectorHints"], "Expected array, received " ++ jsTypeName v⟩])
        (comb (pBilingualTextArray (path ++ ["passCriteria"]) (getField fields "passCriteria"))
        (comb (pBilingualTextArray (path ++ ["failCriteria"]) (getField fields "failCriteria"))
        (comb (pNullableString (path ++ ["nextOnPass"]) (getField fields "nextOnPass"))
              (pNullableString (path ++ ["nextOnFail"]) (getField fields "nextOnFail"))))))))) with
    | .ok (id, ti, pu, pr, ch, pc, fc, np, nf) => .ok ⟨id, ti, pu, pr, ch, pc, fc, np, nf⟩
    | .error e => .error e
  | v => .error [⟨path, "Expected object, received " ++ jsTypeName v⟩]

/-- Validation `DiagnosticPlanSchema.safeParse` (diagnosticSchema.ts lines 39-111):
validates a parsed JSON value against the output schema, returning either
the typed plan (with undeclared keys stripped, as zod does) or the
accumulated list of issues in schema order. -/
def DiagnosticPlanSchema.safeParse (j : Json) :
    Except (List ZodIssue) DiagnosticPlan :=
  match j with
  | .obj fields =>
    match comb (pString ["version"] (getField fields "version"))
        (comb (pLang ["language"] (getField fields "language"))
        (comb (pVehicle ["vehicle"] (getField fields "vehicle"))
        (comb (pConcern ["concern"] (getField fields "concern"))
        (comb (pBilingualText ["overview"] (getField fields "overview"))
        (comb (pBilingualText ["disclaimers"] (getField fields "disclaimers"))
        (comb (pBilingualTextArray ["safetyNotes"] (getField fields "safetyNotes"))
        (comb (pSpecs ["specs"] (getField fields "specs"))
        (comb (match getField fields "steps" with
          | none => .error [⟨["steps"], "Required"⟩]
          | some (.arr steps) =>
            pListIdx (fun i x => pPlanStep (["steps", toString i]) x) 0 steps
          | some v => .error [⟨["steps"], "Expected array, received " ++ jsTypeName v⟩])
        (comb (pString ["firstStepId"] (getField fields "firstStepId"))
              (pString ["sessionId"] (getField fields "sessionId")))))))))))  with
    | .ok (ve, la, vh, co, ov, di, sa, sp, st, fi, se) =>
      .ok ⟨ve, la, vh, co, ov, di, sa, sp, st, fi, se⟩
    | .error e => .error e
  | _ => .error [⟨[], "Expected object, received " ++ jsTypeName j⟩]

/-- JSON-source whitespace (`JSON.parse` skips exactly these four). -/
def isJWS (c : Char) : Bool :=
  c = ' ' || c = '\t' || c = '\n' || c = '\r'

/-- Hexadecimal digit value, for `\u` escapes in JSON strings. -/
def hexVal (c : Char) : Option Nat :=
  if '0' ≤ c ∧ c ≤ '9' then some (c.toNat - 48)
  else if 'a' ≤ c ∧ c ≤ 'f' then some (c.toNat - 87)
  else if 'A' ≤ c ∧ c ≤ 'F' then some (c.toNat - 55)
  else none

/-- Scans the body of a JSON string literal after the opening quote,
handling the escape sequences of the JSON grammar and rejecting raw
control characters; returns the decoded string and the remaining input. -/
def parseJStringAux : Nat → List Char → List Char → Except String (String × List Char)
  | 0, _, _ => .error "Unexpected token"
  | _ + 1, _, [] => .error "Unexpected end of JSON input"
  | f + 1, acc, c :: cs =>
    if c = '"' then .ok (⟨acc.reverse⟩, cs)
    else if c = '\\' then
      match cs with
      | [] => .error "Unexpected end of JSON input"
      | e :: cs' =>
        if e = '"' then parseJStringAux f ('"' :: acc) cs'
        else if e = '\\' then parseJStringAux f ('\\' :: acc) cs'
        else if e = '/' then parseJStringAux f ('/' :: acc) cs'
        else if e = 'b' then parseJStringAux f ('\x08' :: acc) cs'
        else if e = 'f' then parseJStringAux f ('\x0c' :: acc) cs'
        else if e = 'n' then parseJStringAux f ('\n' :: acc) cs'
        else if e = 'r' then parseJStringAux f ('\r' :: acc) cs'
        else if e = 't' then parseJStringAux f ('\t' :: acc) cs'
        else if e = 'u' then
          match cs' with
          | h1 :: h2 :: h3 :: h4 :: cs'' =>
            match hexVal h1, hexVal h2, hexVal h3, hexVal h4 with
            | some a, some b, some c', some d =>
              parseJStringAux f (Char.ofNat (((a * 16 + b) * 16 + c') * 16 + d) :: acc) cs''
            | _, _, _, _ => .error "Unexpected token"
          | _ => .error "Unexpected end of JSON input"
        else .error "Unexpected token"
    else if c.toNat < 32 then .error "Unexpected token"
    else parseJStringAux f (c :: acc) cs

/-- Scans a run of decimal digits, accumulating their value. -/
def parseDigits : List Char → Nat → (Nat × List Char)
  | [], acc => (acc, [])
  | c :: cs, acc =>
    if c.isDigit then parseDigits cs (acc * 10 + (c.toNat - 48))
    else (acc, c :: cs)

/-- Parses the object members after the opening brace.  The value grammar
is supplied as the function argument `pv` (instantiated with the value
parser at one lower fuel), so that the recursion stays structural. -/
def parseMembersF (pv : List Char → Except String (Json × List Char)) :
    Nat → Bool → List (String × Json) → List Char →
    Except String (Json × List Char)
  | 0, _, _, _ => .error "Unexpected token"
  | f + 1, isFirst, acc, cs =>
    let cs := cs.dropWhile isJWS
    match cs with
    | [] => .error "Unexpected end of JSON input"
    | c :: rest =>
      if isFirst ∧ c = rbrace then .ok (.obj [], rest)
      else if c = '"' then
        match parseJStringAux (rest.length + 1) [] rest with
        | .error m => .error m
        | .ok (key, afterKey) =>
          match afterKey.dropWhile isJWS with
          | ':' :: afterColon =>
            match pv afterColon with
            | .error m => .error m
            | .ok (v, afterVal) =>
              match afterVal.dropWhile isJWS with
              | ',' :: afterComma =>
                parseMembersF pv f false ((key, v) :: acc) afterComma
              | d :: afterBrace =>
                if d = rbrace then .ok (.obj (((key, v) :: acc).reverse), afterBrace)
                else .error "Unexpected token"
              | [] => .error "Unexpected end of JSON input"
          | _ => .error "Unexpected token"
      else .error "Unexpected token"

/-- Parses the array items after the opening bracket, in the same
fuel-and-function-parameter style as `parseMembersF`. -/
def parseItemsF (pv : List Char → Except String (Json × List Char)) :
    Nat → Bool → List Json → List Char →
    Except String (Json × List Char)
  | 0, _, _, _ => .error "Unexpected token"
  | f + 1, isFirst, acc, cs =>
    let cs := cs.dropWhile isJWS
    match cs with
    | [] => .error "Unexpected end of JSON input"
    | c :: rest =>
      if isFirst ∧ c = ']' then .ok (.arr [], rest)
      else
        match pv (c :: rest) with
        | .error m => .error m
        | .ok (v, afterVal) =>
          match afterVal.dropWhile isJWS with
          | ',' :: afterComma => parseItemsF pv f false (v :: acc) afterComma
          | ']' :: afterBracket => .ok (.arr ((v :: acc).reverse), afterBracket)
          | _ => .error "Unexpected token"

/-- The JSON value grammar, by recursion on fuel. -/
def parseValF : Nat → List Char → Except String (Json × List Char)
  | 0, _ => .error "Unexpected token"
  | f + 1, cs =>
    let cs := cs.dropWhile isJWS
    match cs with
    | [] => .error "Unexpected end of JSON input"
    | c :: rest =>
      if c = lbrace then parseMembersF (parseValF f) (rest.length + 1) true [] rest
      else if c = '[' then parseItemsF (parseValF f) (rest.length + 1) true [] rest
      else if c = '"' then
        match parseJStringAux (rest.length + 1) [] rest with
        | .error m => .error m
        | .ok (s, afterStr) => .ok (.str s, afterStr)
      else if c = 'n' ∧ rest.take 3 = ['u', 'l', 'l'] then .ok (.null, rest.drop 3)
      else if c = 't' ∧ rest.take 3 = ['r', 'u', 'e'] then .ok (.bool true, rest.drop 3)
      else if c = 'f' ∧ rest.take 4 = ['a', 'l', 's', 'e'] then .ok (.bool false, rest.drop 4)
      else if c = '-' then
        match rest with
        | d :: _ =>
          if d.isDigit then
            let (n, rest') := parseDigits rest 0
            .ok (.num (-(Int.ofNat n)), rest')
          else .error "Unexpected token"
        | [] => .error "Unexpected end of JSON input"
      else if c.isDigit then
        let (n, rest') := parseDigits (c :: rest) 0
        .ok (.num (Int.ofNat n), rest')
      else .error "Unexpected token"

/-- Model of `JSON.parse`: parses a complete JSON document, requiring only
whitespace after the value.  Failure messages stand for the thrown
`SyntaxError`; the exact engine-specific wording is not modelled, and
fractional and exponent number forms are not modelled (no numeric field
occurs in the schemas under verification). -/
def jsonParse (s : String) : Except String Json :=
  match parseValF (s.data.length + 1) s.data with
  | .error m => .error m
  | .ok (v, rest) =>
    if rest.dropWhile isJWS = [] then .ok v
    else .error "Unexpected token"

/-- One lowercase hexadecimal digit, for `JSON.stringify` control escapes. -/
def hexDigit (n : Nat) : String :=
  ⟨[Char.ofNat (if n < 10 then 48 + n else 87 + n)]⟩

/-- Model of `JSON.stringify` escaping of one character inside a string literal. -/
def escJChar (c : Char) : String :=
  if c = '"' then "\\\""
  else if c = '\\' then "\\\\"
  else if c = '\n' then "\\n"
  else if c = '\r' then "\\r"
  else if c = '\t' then "\\t"
  else if c = '\x08' then "\\b"
  else if c = '\x0c' then "\\f"
  else if c.toNat < 32 then "\\u00" ++ hexDigit (c.toNat / 16) ++ hexDigit (c.toNat % 16)
  else ⟨[c]⟩

/-- Model of `JSON.stringify` of a string value. -/
def quoteJString (s : String) : String :=
  "\"" ++ joinSep "" (s.data.map escJChar) ++ "\""

/-- Model of `JSON.stringify(l, null, 2)` of a string array nested at indentation
`ind`: elements one per line at `ind ++ "  "`, the closing bracket at
`ind`; the empty array prints inline. -/
def ppStrList (ind : String) : List String → String
  | [] => "[]"
  | l =>
    "[\n" ++ joinSep ",\n" (l.map fun s => ind ++ "  " ++ quoteJString s) ++
      "\n" ++ ind ++ "]"

/-- Model of `JSON.stringify(x, null, 2)` of the case-input object built at route.ts
lines 113-129, with its keys in literal order; `lang` is the resolved
locale of line 55 and stands in the `language` slot. -/
def serializeInput (input : DiagnosticInput) (lang : String) : String :=
  "\x7b\n" ++
  "  \"make\": " ++ quoteJString input.make ++ ",\n" ++
  "  \"model\": " ++ quoteJString input.model ++ ",\n" ++
  "  \"year\": " ++ quoteJString input.year ++ ",\n" ++
  "  \"engine\": " ++ quoteJString input.engine ++ ",\n" ++
  "  \"dtcs\": " ++ ppStrList "  " input.dtcs ++ ",\n" ++
  "  \"symptom\": " ++ quoteJString input.symptom ++ ",\n" ++
  "  \"notes\": " ++ quoteJString input.notes ++ ",\n" ++
  "  \"language\": " ++ quoteJString lang ++ ",\n" ++
  "  \"sessionId\": " ++ quoteJString input.sessionId ++ ",\n" ++
  "  \"vin\": " ++ quoteJString input.vin ++ ",\n" ++
  "  \"mileage\": " ++ quoteJString input.mileage ++ "\n" ++
  "\x7d"

/-- The fixed lines of the instruction template (route.ts lines 58-112),
up to and including the line announcing the case input. -/
def promptLines : List String :=
  [ "You are generating a structured automotive diagnostic plan.",
    "",
    "Return ONLY valid JSON. No markdown. No backticks. No commentary.",
    "The JSON MUST match this structure and include ALL required keys:",
    "",
    "\x7b",
    "  \"version\": \"1.0\",",
    "  \"language\": \"en\" | \"es\",",
    "  \"vehicle\": \x7b \"make\": string, \"model\": string, \"year\": string, \"engine\": string, \"vin\": string, \"mileage\": string \x7d,",
    "  \"concern\": \x7b \"dtcs\": string[], \"symptom\": string, \"notes\": string \x7d,",
    "  \"overview\": \x7b \"en\": string, \"es\": string \x7d,",
    "  \"disclaimers\": \x7b \"en\": string, \"es\": string \x7d,",
    "  \"safetyNotes\": \x7b \"en\": string[], \"es\": string[] \x7d,",
    "  \"specs\": \x7b",
    "    \"labeledAsEstimated\": boolean,",
    "    \"items\": [",
    "      \x7b \"name\": \x7b \"en\": string, \"es\": string \x7d, \"expectedRange\": string, \"unit\": string, \"note\": \x7b \"en\": string, \"es\": string \x7d, \"estimated\": boolean \x7d",
    "    ]",
    "  \x7d,",
    "  \"steps\": [",
    "    \x7b",
    "      \"id\": string,",
    "      \"title\": \x7b \"en\": string, \"es\": string \x7d,",
    "      \"purpose\": \x7b \"en\": string, \"es\": string \x7d,",
    "      \"procedure\": \x7b \"en\": string[], \"es\": string[] \x7d,",
    "      \"connectorHints\": [",
    "        \x7b",
    "          \"label\": \x7b \"en\": string, \"es\": string \x7d,",
    "          \"test\": \x7b \"en\": string, \"es\": string \x7d,",
    "          \"expectedRange\": string,",
    "          \"estimated\": boolean,",
    "          \"notes\": \x7b \"en\": string, \"es\": string \x7d",
    "        \x7d",
    "      ],",
    "      \"passCriteria\": \x7b \"en\": string[], \"es\": string[] \x7d,",
    "      \"failCriteria\": \x7b \"en\": string[], \"es\": string[] \x7d,",
    "      \"nextOnPass\": string | null,",
    "      \"nextOnFail\": string | null",
    "    \x7d",
    "  ],",
    "  \"firstStepId\": string,",
    "  \"sessionId\": string",
    "\x7d",
    "",
    "Rules:",
    "- If VIN or mileage are unknown, set them to \"\" (empty string). Do NOT omit.",
    "- Use estimated specs/ranges only; mark estimated=true and include \"estimated\" label in notes.",
    "- NO OEM wiring diagrams. You may reference: \"Refer to OEM wiring diagram (OEM/Alldata/Mitchell) if available.\"",
    "- Include bilingual text in both en and es ALWAYS, even if language is \"en\" or \"es\".",
    "- Keep steps practical and safe. Include at least 5 steps.",
    "- Use stable step ids like \"step-1\", \"step-2\", etc.",
    "- Set firstStepId to \"step-1\".",
    "- sessionId must echo the provided sessionId (or \"\" if none).",
    "",
    "Here is the case input:" ]

/-- Model of `String.prototype.trim` on strings. -/
def trimS (s : String) : String :=
  ⟨trimChars s.data⟩

/-- The prompt of the first model-completion call (route.ts lines 55-130):
the resolved locale, the instruction template, the serialized case input,
and the final `.trim()` of the template literal. -/
def buildPrompt (input : DiagnosticInput) : String :=
  let lang := if input.language = "es" then "es" else "en"
  trimS ("\n" ++ joinSep "\n" promptLines ++ "\n" ++ serializeInput input lang ++ "\n")

/-- The two kinds of exception bound to `lastErr` in the handler loop: the
`SyntaxError` thrown by `JSON.parse`, and the zod validation failure
carrying its `issues` array. -/
inductive JsError where
  | parseError (msg : String)
  | zodError (issues : List ZodIssue)
deriving DecidableEq

/-- Model of `String(err)`: the JavaScript string conversion of the exception.  The
`ZodError` branch is reachable only for an empty issue list, which zod
never produces; its exact text is immaterial. -/
def jsErrString : JsError → String
  | .parseError m => "SyntaxError: " ++ m
  | .zodError _ => "ZodError"

/-- Function `zodErrToShortString` from route.ts lines 24-37: when the error carries
a non-empty `issues` array, the first 8 issues are rendered as
`path: message` (dotted path, `(root)` for an empty join) and joined with
semicolons; otherwise the error is stringified. -/
def zodErrToShortString (err : JsError) : String :=
  match err with
  | .zodError issues =>
    if issues.length = 0 then jsErrString err
    else
      joinSep "; " ((issues.take 8).map fun i =>
        (if joinSep "." i.path = "" then "(root)" else joinSep "." i.path) ++
          ": " ++ i.message)
  | _ => jsErrString err

/-- The JSON responses the handler can produce: `ok plan` is
`NextResponse.json(\x7b ok: true, plan \x7d)` with default status 200; `err`
carries the status and the `error`, `detail` and `raw` fields (absent
fields are `none`). -/
inductive ApiResponse where
  | ok (plan : DiagnosticPlan)
  | err (status : Nat) (error : String) (detail : Option String) (raw : Option String)
deriving DecidableEq

/-- One iteration of the generation loop body (route.ts lines 137-169):
invoke the provider on the given prompt, strip fences, extract the brace
block (falling back to the cleaned text), `JSON.parse` it, and validate
against the output schema.  Returns the raw model text together with
either the validated plan or the error bound to `lastErr`. -/
def attemptOnce (gen : String → String) (promptText : String) :
    String × Except JsError DiagnosticPlan :=
  let rawText := gen promptText
  let cleaned := stripJsonFences rawText
  let jsonBlock := (extractFirstJsonObject cleaned).getD cleaned
  match jsonParse jsonBlock with
  | .error m => (rawText, .error (.parseError m))
  | .ok parsed =>
    match DiagnosticPlanSchema.safeParse parsed with
    | .ok plan => (rawText, .ok plan)
    | .error issues => (rawText, .error (.zodError issues))

/-- The prompt of the repair call (route.ts lines 142-147): the original
prompt, the rendered issues of the previous failure, and the corrective
instruction. -/
def repairPrompt (promptText : String) (lastErr : JsError) : String :=
  promptText ++ "\n\nYour previous JSON failed validation with these issues:\n" ++
    zodErrToShortString lastErr ++
    "\n\nReturn ONLY corrected JSON that satisfies the structure exactly. Do not omit required keys."

/-- The error string of the missing-credential response (route.ts line 43). -/
def missingKeyError : String := "Missing OPENAI_API_KEY in .env.local"

/-- The error string of the terminal failure response (route.ts line 176). -/
def schemaFailError : String := "Model did not return valid JSON matching schema"

/-- Model of `ZodError#message` as read by the outer catch of the handler
(`err.message`); a serialization of the issue list whose exact text no
claim depends on. -/
def zodErrorMessage (issues : List ZodIssue) : String :=
  joinSep "\n" (issues.map fun i => joinSep "." i.path ++ ": " ++ i.message)

/-- Truthiness of `process.env.OPENAI_API_KEY`: both an unset variable and
the empty string are falsy in the `!process.env.OPENAI_API_KEY` guard. -/
def envKeySet : Option String → Bool
  | none => false
  | some s => !(s == "")

/-- The `POST` handler (route.ts lines 39-192).  The request body is taken
already JSON-decoded; the text-generation provider is the function `gen`
from prompt to raw output text.  The result pairs the HTTP response with
the list of prompts sent to the provider, in call order, which models the
sequence of outbound model-completion calls. -/
def POST (apiKey : Option String) (body : Json) (gen : String → String) :
    ApiResponse × List String :=
  if envKeySet apiKey = false then
    (.err 500 missingKeyError none none, [])
  else
    match DiagnosticInputSchema.safeParse body with
    | .error issues =>
      (.err 400 "Diagnose failed" (some (zodErrorMessage issues)) none, [])
    | .ok input =>
      let promptText := buildPrompt input
      match attemptOnce gen promptText with
      | (_, .ok plan) => (.ok plan, [promptText])
      | (_, .error e1) =>
        let prompt2 := repairPrompt promptText e1
        match attemptOnce gen prompt2 with
        | (_, .ok plan) => (.ok plan, [promptText, prompt2])
        | (raw2, .error e2) =>
          (.err 500 schemaFailError (some (zodErrToShortString e2)) (some raw2),
            [promptText, prompt2])

/-- The scenario-A request body of the specification, as decoded JSON. -/
def hondaBody : Json :=
  .obj [("make", .str "Honda"), ("model", .str "Civic"), ("year", .str "2015"),
        ("engine", .str "1.8L"), ("dtcs", .arr [.str "P0420"]),
        ("symptom", .str "Check engine light on"), ("notes", .str ""),
        ("language", .str "en")]

/-- The validated form of `hondaBody`. -/
def hondaInput : DiagnosticInput :=
  ⟨"Honda", "Civic", "2015", "1.8L", ["P0420"], "Check engine light on",
   "", "en", "", "", ""⟩

/-- A raw provider response that is well-formed JSON and satisfies the
output schema, with an empty step list and `firstStepId` not referencing
any `step-1`; the schema accepts it. -/
def okRaw : String :=
  "\x7b\"version\":\"1.0\",\"language\":\"en\",\"vehicle\":\x7b\"make\":\"Honda\",\"model\":\"Civic\",\"year\":\"2015\",\"engine\":\"1.8L\",\"vin\":\"\",\"mileage\":\"\"\x7d,\"concern\":\x7b\"dtcs\":[\"P0420\"],\"symptom\":\"Check engine light on\",\"notes\":\"\"\x7d,\"overview\":\x7b\"en\":\"cat\",\"es\":\"gato\"\x7d,\"disclaimers\":\x7b\"en\":\"d\",\"es\":\"e\"\x7d,\"safetyNotes\":\x7b\"en\":[],\"es\":[]\x7d,\"specs\":\x7b\"labeledAsEstimated\":true,\"items\":[]\x7d,\"steps\":[],\"firstStepId\":\"x\",\"sessionId\":\"\"\x7d"

/-- The plan `okRaw` validates to. -/
def okPlan : DiagnosticPlan :=
  ⟨"1.0", "en", ⟨"Honda", "Civic", "2015", "1.8L", "", ""⟩,
   ⟨["P0420"], "Check engine light on", ""⟩, ⟨"cat", "gato"⟩, ⟨"d", "e"⟩,
   ⟨[], []⟩, ⟨true, []⟩, [], "x", ""⟩

/-- A provider that answers every prompt with `okRaw`. -/
def genOK : String → String := fun _ => okRaw

/-- A provider that answers every prompt with prose containing no brace. -/
def genBad : String → String := fun _ => "no json here at all"

/-- A provider that answers every prompt with an empty JSON object. -/
def genCurly : String → String := fun _ => "\x7b\x7d"

/-- Substring scan: whether `needle` occurs contiguously in `hay`.  Written
as a left-to-right scan so that concrete instances evaluate within the
kernel. -/
def containsSub (needle : List Char) : List Char → Bool
  | [] => needle.isPrefixOf []
  | h :: t => needle.isPrefixOf (h :: t) || containsSub needle t

/-- Serialization of `BilingualText`, as `NextResponse.json` renders it. -/
def BilingualText.toJson (b : BilingualText) : Json :=
  .obj [("en", .str b.en), ("es", .str b.es)]

/-- Serialization of `BilingualTextArray`. -/
def BilingualTextArray.toJson (b : BilingualTextArray) : Json :=
  .obj [("en", .arr (b.en.map Json.str)), ("es", .arr (b.es.map Json.str))]

/-- Serialization of the `vehicle` object. -/
def Vehicle.toJson (v : Vehicle) : Json :=
  .obj [("make", .str v.make), ("model", .str v.model), ("year", .str v.year),
        ("engine", .str v.engine), ("vin", .str v.vin),
        ("mileage", .str v.mileage)]

/-- Serialization of the `concern` object. -/
def Concern.toJson (c : Concern) : Json :=
  .obj [("dtcs", .arr (c.dtcs.map Json.str)), ("symptom", .str c.symptom),
        ("notes", .str c.notes)]

/-- Serialization of a `specs.items` element. -/
def SpecItem.toJson (it : SpecItem) : Json :=
  .obj [("name", it.name.toJson), ("expectedRange", .str it.expectedRange),
        ("unit", .str it.unit), ("note", it.note.toJson),
        ("estimated", .bool it.estimated)]

/-- Serialization of the `specs` object. -/
def Specs.toJson (sp : Specs) : Json :=
  .obj [("labeledAsEstimated", .bool sp.labeledAsEstimated),
        ("items", .arr (sp.items.map SpecItem.toJson))]

/-- Serialization of a nullable string field. -/
def optStrToJson : Option String → Json
  | none => .null
  | some s => .str s

/-- Serialization of a `connectorHints` element. -/
def ConnectorHint.toJson (hnt : ConnectorHint) : Json :=
  .obj [("label", hnt.label.toJson), ("test", hnt.test.toJson),
        ("expectedRange", .str hnt.expectedRange),
        ("estimated", .bool hnt.estimated), ("notes", hnt.notes.toJson)]

/-- Serialization of a `steps` element. -/
def PlanStep.toJson (st : PlanStep) : Json :=
  .obj [("id", .str st.id), ("title", st.title.toJson),
        ("purpose", st.purpose.toJson), ("procedure", st.procedure.toJson),
        ("connectorHints", .arr (st.connectorHints.map ConnectorHint.toJson)),
        ("passCriteria", st.passCriteria.toJson),
        ("failCriteria", st.failCriteria.toJson),
        ("nextOnPass", optStrToJson st.nextOnPass),
        ("nextOnFail", optStrToJson st.nextOnFail)]

/-- Serialization of the validated plan: the JSON body the success response
carries in its `plan` field. -/
def DiagnosticPlan.toJson (p : DiagnosticPlan) : Json :=
  .obj [("version", .str p.version), ("language", .str p.language),
        ("vehicle", p.vehicle.toJson), ("concern", p.concern.toJson),
        ("overview", p.overview.toJson), ("disclaimers", p.disclaimers.toJson),
        ("safetyNotes", p.safetyNotes.toJson), ("specs", p.specs.toJson),
        ("steps", .arr (p.steps.map PlanStep.toJson)),
        ("firstStepId", .str p.firstStepId), ("sessionId", .str p.sessionId)]

/-- Field access on a JSON value (none on non-objects). -/
def getF (j : Json) (k : String) : Option Json :=
  match j with
  | .obj fs => getField fs k
  | _ => none

/-- Whether a JSON value is a string. -/
def isStrJson : Json → Bool
  | .str _ => true
  | _ => false

/-- A bilingual text node: an object carrying string `en` and `es`. -/
def isBiText : Option Json → Bool
  | some (.obj fs) =>
    (match getField fs "en" with | some (.str _) => true | _ => false) &&
    (match getField fs "es" with | some (.str _) => true | _ => false)
  | _ => false

/-- An array of strings. -/
def isStrArrJson : Option Json → Bool
  | some (.arr l) => l.all isStrJson
  | _ => false

/-- A bilingual list node: an object carrying string arrays `en` and `es`. -/
def isBiArr : Option Json → Bool
  | some (.obj fs) =>
    isStrArrJson (getField fs "en") && isStrArrJson (getField fs "es")
  | _ => false

/-- All bilingual fields of a serialized connector hint carry both locales. -/
def hintBilingual (j : Json) : Bool :=
  isBiText (getF j "label") && isBiText (getF j "test") &&
    isBiText (getF j "notes")

/-- All bilingual fields of a serialized spec item carry both locales. -/
def itemBilingual (j : Json) : Bool :=
  isBiText (getF j "name") && isBiText (getF j "note")

/-- All bilingual fields of a serialized step carry both locales. -/
def stepBilingual (j : Json) : Bool :=
  isBiText (getF j "title") && isBiText (getF j "purpose") &&
  isBiArr (getF j "procedure") &&
  (match getF j "connectorHints" with
    | some (.arr hs) => hs.all hintBilingual
    | _ => false) &&
  isBiArr (getF j "passCriteria") && isBiArr (getF j "failCriteria")

/-- Every bilingual field of a serialized plan carries both an `en` and an
`es` component of the appropriate shape, throughout the nested structure. -/
def bilingualComplete (j : Json) : Bool :=
  isBiText (getF j "overview") && isBiText (getF j "disclaimers") &&
  isBiArr (getF j "safetyNotes") &&
  (match getF j "specs" with
    | some (.obj fs) =>
      (match getField fs "items" with
        | some (.arr items) => items.all itemBilingual
        | _ => false)
    | _ => false) &&
  (match getF j "steps" with
    | some (.arr steps) => steps.all stepBilingual
    | _ => false)

/-- The declared top-level keys of `DiagnosticPlanSchema`, in shape order. -/
def DiagnosticPlanKeys : List String :=
  ["version", "language", "vehicle", "concern", "overview", "disclaimers",
   "safetyNotes", "specs", "steps", "firstStepId", "sessionId"]

/-- The top-level keys of a JSON object. -/
def topLevelKeys : Json → List String
  | .obj fs => fs.map fun p => p.1
  | _ => []

/-- Three consecutive backticks: the closing fence, and the pattern of the
second regex of `stripJsonFences`. -/
def t3 : List Char := [tick, tick, tick]

/-- The opening fence ```` ```json ````, as matched by the first regex of
`stripJsonFences`. -/
def fenceJson : List Char := [tick, tick, tick, 'j', 's', 'o', 'n']

/-- The eleven Required issues produced when the model returns an empty
JSON object: one per top-level key of the output schema, in shape order. -/
def elevenIssues : List ZodIssue :=
  [⟨["version"], "Required"⟩, ⟨["language"], "Required"⟩,
   ⟨["vehicle"], "Required"⟩, ⟨["concern"], "Required"⟩,
   ⟨["overview"], "Required"⟩, ⟨["disclaimers"], "Required"⟩,
   ⟨["safetyNotes"], "Required"⟩, ⟨["specs"], "Required"⟩,
   ⟨["steps"], "Required"⟩, ⟨["firstStepId"], "Required"⟩,
   ⟨["sessionId"], "Required"⟩]

/-- Correctness: `containsSub` decides the contiguous-sublist relation. -/
theorem containsSub_iff (needle hay : List Char) :
    containsSub needle hay = true ↔ needle <:+: hay := by
  induction hay with
  | nil =>
    simp [containsSub, List.infix_nil, List.isPrefixOf_iff_prefix,
      List.prefix_nil]
  | cons h t ih =>
    simp [containsSub, List.isPrefixOf_iff_prefix, ih, List.infix_cons_iff]

theorem dropWhile_append_t3 (l : List Char) :
    (l ++ t3).dropWhile isWS = l.dropWhile isWS ++ t3 := by
  induction l with
  | nil => rfl
  | cons a as ih =>
    by_cases ha : isWS a
    · simp [List.dropWhile_cons, ha, ih]
    · simp [List.dropWhile_cons, ha]

theorem dropWhile_isWS_idem (l : List Char) :
    (l.dropWhile isWS).dropWhile isWS = l.dropWhile isWS := by
  induction l with
  | nil => rfl
  | cons a as ih =>
    by_cases ha : isWS a
    · simp [List.dropWhile_cons, ha, ih]
    · simp [List.dropWhile_cons, ha]

theorem stripJsonTagF_append_t3 (l : List Char) :
    ∀ f : Nat, l.length + 4 ≤ f → ¬ t3 <:+: l →
      stripJsonTagF f (l ++ t3) = l ++ t3 := by
  induction l with
  | nil =>
    intro f hf _
    obtain ⟨f', rfl⟩ : ∃ f', f = f' + 1 := ⟨f - 1, by omega⟩
    rfl
  | cons a as ih =>
    intro f hf h
    obtain ⟨f', rfl⟩ : ∃ f', f = f' + 1 := ⟨f - 1, by omega⟩
    have htail : ¬ t3 <:+: as := fun hx => h (List.infix_cons hx)
    have hfa : as.length + 4 ≤ f' := by
      simp only [List.length_cons] at hf
      omega
    rcases as with _ | ⟨b, _ | ⟨c, _ | ⟨d, _ | ⟨e, _ | ⟨g, _ | ⟨hh, rest⟩⟩⟩⟩⟩⟩
    · rfl
    · rfl
    · rfl
    · have hcond : ¬ (a = tick ∧ b = tick ∧ c = tick ∧ d.toLower = 'j' ∧
          tick.toLower = 's' ∧ tick.toLower = 'o' ∧ tick.toLower = 'n') := by
        intro hc
        exact absurd hc.2.2.2.2.1 (by decide)
      simp only [t3, List.cons_append, List.nil_append]
      simp only [stripJsonTagF]
      rw [if_neg hcond]
      congr 1
      have := ih f' hfa htail
      simpa [t3] using this
    · have hcond : ¬ (a = tick ∧ b = tick ∧ c = tick ∧ d.toLower = 'j' ∧
          e.toLower = 's' ∧ tick.toLower = 'o' ∧ tick.toLower = 'n') := by
        intro hc
        exact absurd hc.2.2.2.2.2.1 (by decide)
      simp only [t3, List.cons_append, List.nil_append]
      simp only [stripJsonTagF]
      rw [if_neg hcond]
      congr 1
      have := ih f' hfa htail
      simpa [t3] using this
    · have hcond : ¬ (a = tick ∧ b = tick ∧ c = tick ∧ d.toLower = 'j' ∧
          e.toLower = 's' ∧ g.toLower = 'o' ∧ tick.toLower = 'n') := by
        intro hc
        exact absurd hc.2.2.2.2.2.2 (by decide)
      simp only [t3, List.cons_append, List.nil_append]
      simp only [stripJsonTagF]
      rw [if_neg hcond]
      congr 1
      have := ih f' hfa htail
      simpa [t3] using this
    · have hcond : ¬ (a = tick ∧ b = tick ∧ c = tick ∧ d.toLower = 'j' ∧
          e.toLower = 's' ∧ g.toLower = 'o' ∧ hh.toLower = 'n') := by
        rintro ⟨ha, hb, hc, -⟩
        exact h ⟨[], d :: e :: g :: hh :: rest, by simp [t3, ha, hb, hc]⟩
      simp only [t3, List.cons_append, List.nil_append]
      simp only [stripJsonTagF]
      rw [if_neg hcond]
      congr 1
      have := ih f' hfa htail
      simpa [t3] using this

theorem stripTicks_append_t3 (l : List Char) :
    ¬ t3 <:+: l → stripTicks (l ++ t3) = l := by
  induction l with
  | nil => intro _; rfl
  | cons a as ih =>
    intro h
    have htail : ¬ t3 <:+: as := fun hx => h (List.infix_cons hx)
    rcases as with _ | ⟨b, _ | ⟨c, rest⟩⟩
    · by_cases ha : a = tick
      · subst ha; rfl
      · simp only [t3, List.cons_append, List.nil_append]
        simp only [stripTicks]
        rw [if_neg fun hc => ha hc.1]
        simp
    · by_cases hab : a = tick ∧ b = tick
      · obtain ⟨ha, hb⟩ := hab
        subst ha; subst hb
        rfl
      · simp only [t3, List.cons_append, List.nil_append]
        simp only [stripTicks]
        rw [if_neg fun hc => hab ⟨hc.1, hc.2.1⟩]
        by_cases hb : b = tick
        · subst hb
          simp
        · rw [if_neg fun hc => hb hc.1]
          simp
    · have hcond : ¬ (a = tick ∧ b = tick ∧ c = tick) := by
        rintro ⟨ha, hb, hc⟩
        exact h ⟨[], rest, by simp [t3, ha, hb, hc]⟩
      simp only [t3, List.cons_append]
      simp only [stripTicks]
      rw [if_neg hcond]
      congr 1
      have := ih htail
      simpa [t3] using this

/-- C6, amended: for every inner content containing no three consecutive
backticks, stripping a string made of the ```` ```json ```` opening fence,
the inner content, and the closing ```` ``` ```` fence yields exactly the
inner content with surrounding whitespace trimmed.  (When the inner content
itself contains a triple-backtick sequence, the global regex replacements
remove it too, as the counterexample shows.) -/
theorem claim_C6 (inner : List Char) (h : ¬ t3 <:+: inner) :
    stripJsonFencesL (fenceJson ++ (inner ++ t3)) = trimChars inner := by
  have hinfix : ¬ t3 <:+: inner.dropWhile isWS :=
    fun hx => h (hx.trans (List.dropWhile_suffix isWS).isInfix)
  have hlen : (fenceJson ++ (inner ++ t3)).length = inner.length + 10 := by
    simp [fenceJson, t3]
  unfold stripJsonFencesL stripJsonTag
  rw [hlen]
  have hshape : fenceJson ++ (inner ++ t3) =
      tick :: tick :: tick :: 'j' :: 's' :: 'o' :: 'n' :: (inner ++ t3) := by
    simp [fenceJson]
  rw [hshape]
  simp only [stripJsonTagF]
  rw [if_pos (by decide)]
  rw [dropWhile_append_t3]
  have hdw : (inner.dropWhile isWS).length ≤ inner.length :=
    (List.dropWhile_suffix isWS).sublist.length_le
  rw [stripJsonTagF_append_t3 (inner.dropWhile isWS) _ (by omega) hinfix]
  rw [stripTicks_append_t3 _ hinfix]
  unfold trimChars
  rw [dropWhile_isWS_idem]

/-- Counterexample to C6 as stated: with inner content `a```b` (a triple
backtick inside), the function does not return the trimmed inner content —
the inner fence is removed as well. -/
theorem claim_C6_cex :
    stripJsonFencesL (fenceJson ++ (('a' :: (t3 ++ ['b'])) ++ t3)) ≠
      trimChars ('a' :: (t3 ++ ['b'])) := by decide

/-- Witness for C6 at a concrete fenced payload. -/
theorem claim_C6_witness :
    stripJsonFencesL (fenceJson ++ ("\n\x7b \"x\": 1 \x7d\n".data ++ t3)) =
      trimChars "\n\x7b \"x\": 1 \x7d\n".data :=
  claim_C6 "\n\x7b \"x\": 1 \x7d\n".data (by decide)

theorem indexOfAux_append (c : Char) (l rest : List Char) :
    ∀ i, c ∉ l → indexOfAux c (l ++ rest) i = indexOfAux c rest (i + l.length) := by
  induction l with
  | nil => intro i _; simp [indexOfAux]
  | cons x xs ih =>
    intro i h
    have hx : ¬ (x = c) := fun he => h (by simp [he])
    simp only [List.cons_append, indexOfAux, if_neg hx, List.length_cons,
      List.append_eq]
    rw [ih (i + 1) fun hm => h (List.mem_cons_of_mem _ hm)]
    congr 1
    omega

theorem lastIndexOfAux_append (c : Char) (l r : List Char) :
    ∀ i acc, lastIndexOfAux c (l ++ r) i acc =
      lastIndexOfAux c r (i + l.length) (lastIndexOfAux c l i acc) := by
  induction l with
  | nil => intro i acc; simp [lastIndexOfAux]
  | cons x xs ih =>
    intro i acc
    simp only [List.cons_append, lastIndexOfAux, List.length_cons, List.append_eq]
    rw [ih]
    congr 1
    omega

theorem lastIndexOfAux_notmem (c : Char) (l : List Char) :
    ∀ i acc, c ∉ l → lastIndexOfAux c l i acc = acc := by
  induction l with
  | nil => intro i acc _; rfl
  | cons x xs ih =>
    intro i acc h
    have hx : ¬ (x = c) := fun he => h (by simp [he])
    simp only [lastIndexOfAux, if_neg hx]
    exact ih _ _ fun hm => h (List.mem_cons_of_mem _ hm)

theorem take_append_cons (m : List Char) (z : Char) (rest : List Char) :
    (m ++ z :: rest).take (m.length + 1) = m ++ [z] := by
  induction m with
  | nil => simp
  | cons y ys ih => simp [List.take_succ_cons, ih]

/-- C3: when the credential is unset, the handler answers `ok:false` with
HTTP status 500 and sends no prompt to the provider. -/
theorem claim_C3 (body : Json) (gen : String → String) :
    POST none body gen = (.err 500 missingKeyError none none, []) := rfl

/-- C5: for every string made of prose without an opening brace, a first
opening brace, arbitrary middle content, a last closing brace, and prose
without a closing brace, the brace extractor returns exactly the slice from
the first opening brace to the last closing brace inclusive. -/
theorem claim_C5 (pre mid post : List Char)
    (hpre : lbrace ∉ pre) (hpost : rbrace ∉ post) :
    extractFirstJsonObjectL (pre ++ (lbrace :: (mid ++ (rbrace :: post)))) =
      some (lbrace :: (mid ++ [rbrace])) := by
  have hidx : indexOfAux lbrace (pre ++ (lbrace :: (mid ++ (rbrace :: post)))) 0 =
      some pre.length := by
    rw [indexOfAux_append lbrace pre _ 0 hpre]
    simp [indexOfAux]
  have hsplit : pre ++ (lbrace :: (mid ++ (rbrace :: post))) =
      (pre ++ (lbrace :: mid)) ++ (rbrace :: post) := by simp
  have hlast : lastIndexOfAux rbrace (pre ++ (lbrace :: (mid ++ (rbrace :: post)))) 0 none =
      some (pre.length + 1 + mid.length) := by
    rw [hsplit, lastIndexOfAux_append]
    have hstep : ∀ i acc, lastIndexOfAux rbrace (rbrace :: post) i acc = some i := by
      intro i acc
      have h1 : lastIndexOfAux rbrace (rbrace :: post) i acc =
          lastIndexOfAux rbrace post (i + 1) (some i) := by
        simp [lastIndexOfAux]
      rw [h1, lastIndexOfAux_notmem rbrace post _ _ hpost]
    rw [hstep]
    have harith1 : (0 : Nat) + (pre ++ (lbrace :: mid)).length =
        pre.length + 1 + mid.length := by
      simp only [Nat.zero_add, List.length_append, List.length_cons]
      omega
    rw [harith1]
  simp only [extractFirstJsonObjectL, hidx, hlast]
  rw [if_neg (by omega)]
  have hdrop : (pre ++ (lbrace :: (mid ++ (rbrace :: post)))).drop pre.length =
      lbrace :: (mid ++ (rbrace :: post)) := List.drop_left' rfl
  rw [hdrop]
  have harith : pre.length + 1 + mid.length + 1 - pre.length = mid.length + 1 + 1 := by
    omega
  rw [harith, List.take_succ_cons, take_append_cons]

theorem pListIdx_strings (path : List String) (dt : List String) :
    ∀ n, pListIdx (fun i x => pString (path ++ [toString i]) (some x)) n
      (dt.map Json.str) = .ok dt := by
  induction dt with
  | nil => intro n; rfl
  | cons s ss ih =>
    intro n
    rw [List.map_cons]
    simp only [pListIdx]
    rw [ih (n + 1)]
    simp [pString, comb]

theorem pStringArray_strings (path : List String) (dt : List String) :
    pStringArray path (some (.arr (dt.map Json.str))) = .ok dt := by
  simp [pStringArray, pListIdx_strings]

/-- C7: any request object that binds the six required fields to values of
the right types and omits all five optional fields parses successfully, and
the optional fields receive their defaults: notes, sessionId, vin and
mileage become the empty string and language becomes en. -/
theorem claim_C7 (fields : List (String × Json))
    (mk md yr eg sym : String) (dt : List String)
    (hmk : getField fields "make" = some (.str mk))
    (hmd : getField fields "model" = some (.str md))
    (hyr : getField fields "year" = some (.str yr))
    (heg : getField fields "engine" = some (.str eg))
    (hdt : getField fields "dtcs" = some (.arr (dt.map Json.str)))
    (hsy : getField fields "symptom" = some (.str sym))
    (hno : getField fields "notes" = none)
    (hla : getField fields "language" = none)
    (hse : getField fields "sessionId" = none)
    (hvi : getField fields "vin" = none)
    (hmi : getField fields "mileage" = none) :
    DiagnosticInputSchema.safeParse (.obj fields) =
      .ok ⟨mk, md, yr, eg, dt, sym, "", "en", "", "", ""⟩ := by
  simp only [DiagnosticInputSchema.safeParse, hmk, hmd, hyr, heg, hdt, hsy,
    hno, hla, hse, hvi, hmi]
  simp [pString, pOptString, pOptLang, pStringArray_strings, comb]

/-- Witness for C7: the minimal scenario-A body, optional fields omitted. -/
theorem claim_C7_witness :
    DiagnosticInputSchema.safeParse
        (.obj [("make", .str "Honda"), ("model", .str "Civic"),
               ("year", .str "2015"), ("engine", .str "1.8L"),
               ("dtcs", .arr [.str "P0420"]),
               ("symptom", .str "Check engine light on")]) =
      .ok ⟨"Honda", "Civic", "2015", "1.8L", ["P0420"],
           "Check engine light on", "", "en", "", "", ""⟩ :=
  claim_C7 _ "Honda" "Civic" "2015" "1.8L" "Check engine light on" ["P0420"]
    rfl rfl rfl rfl rfl rfl rfl rfl rfl rfl rfl

/-- Witness for C5 at a concrete messy provider answer. -/
theorem claim_C5_witness :
    extractFirstJsonObjectL
        ("Sure: ".data ++ (lbrace :: (" \"a\": 1 ".data ++ (rbrace :: " done".data)))) =
      some (lbrace :: (" \"a\": 1 ".data ++ [rbrace])) :=
  claim_C5 "Sure: ".data " \"a\": 1 ".data " done".data (by decide) (by decide)

theorem isBiText_toJson (b : BilingualText) : isBiText (some b.toJson) = true := rfl

theorem all_isStrJson_map (l : List String) :
    (l.map Json.str).all isStrJson = true := by
  simp [List.all_map, isStrJson, Function.comp, List.all_eq_true]

theorem isBiArr_toJson (b : BilingualTextArray) : isBiArr (some b.toJson) = true := by
  have h : isBiArr (some b.toJson) =
      ((b.en.map Json.str).all isStrJson && (b.es.map Json.str).all isStrJson) := rfl
  rw [h, all_isStrJson_map, all_isStrJson_map]
  rfl

theorem hintBilingual_toJson (hnt : ConnectorHint) :
    hintBilingual hnt.toJson = true := rfl

theorem itemBilingual_toJson (it : SpecItem) : itemBilingual it.toJson = true := rfl

theorem stepBilingual_toJson (st : PlanStep) : stepBilingual st.toJson = true := by
  have h : stepBilingual st.toJson =
      (isBiText (some st.title.toJson) && isBiText (some st.purpose.toJson) &&
       isBiArr (some st.procedure.toJson) &&
       (st.connectorHints.map ConnectorHint.toJson).all hintBilingual &&
       isBiArr (some st.passCriteria.toJson) &&
       isBiArr (some st.failCriteria.toJson)) := rfl
  rw [h, isBiText_toJson, isBiText_toJson, isBiArr_toJson, isBiArr_toJson,
    isBiArr_toJson]
  simp [List.all_map, Function.comp, hintBilingual_toJson, List.all_eq_true]

theorem bilingualComplete_toJson (p : DiagnosticPlan) :
    bilingualComplete p.toJson = true := by
  have h : bilingualComplete p.toJson =
      (isBiText (some p.overview.toJson) && isBiText (some p.disclaimers.toJson) &&
       isBiArr (some p.safetyNotes.toJson) &&
       (p.specs.items.map SpecItem.toJson).all itemBilingual &&
       (p.steps.map PlanStep.toJson).all stepBilingual) := rfl
  rw [h, isBiText_toJson, isBiText_toJson, isBiArr_toJson]
  simp [List.all_map, Function.comp, itemBilingual_toJson, stepBilingual_toJson,
    List.all_eq_true]

/-- C9: every plan carried by a success response of the handler is fully
bilingual once serialized: each bilingual field holds both an `en` and an
`es` component of the appropriate shape (string or string array), whatever
locale the request asked for. -/
theorem claim_C9 (apiKey : Option String) (body : Json) (gen : String → String)
    (p : DiagnosticPlan) (_hp : (POST apiKey body gen).1 = .ok p) :
    bilingualComplete p.toJson = true :=
  bilingualComplete_toJson p

/-- Witness for C9 on a concrete successful round trip. -/
theorem claim_C9_witness : bilingualComplete okPlan.toJson = true :=
  claim_C9 (some "k") hondaBody genOK okPlan (by decide)

theorem find?_append_none {α : Type} (p : α → Bool) (l1 l2 : List α)
    (h : ∀ x ∈ l1, ¬ p x = true) :
    List.find? p (l1 ++ l2) = List.find? p l2 := by
  induction l1 with
  | nil => rfl
  | cons a as ih =>
    have ha : p a = false := by
      cases hpa : p a
      · rfl
      · exact absurd hpa (h a (List.mem_cons_self a as))
    simp only [List.cons_append, List.find?_cons, ha]
    exact ih fun x hx => h x (List.mem_cons_of_mem _ hx)

theorem getField_append_of_undeclared (fields extra : List (String × Json))
    (k : String) (h : ∀ q ∈ extra, ¬ (q.1 = k)) :
    getField (fields ++ extra) k = getField fields k := by
  unfold getField
  rw [List.reverse_append, find?_append_none]
  intro x hx
  have hxe : x ∈ extra := List.mem_reverse.mp hx
  simpa using h x hxe

/-- C10: the plan of a success response is exactly the zod parse of the
JSON the model produced, with undeclared keys stripped.  First conjunct:
appending fields with undeclared keys to an object leaves the parse result
unchanged, so unknown keys never reach the plan.  Second conjunct: a
serialized plan carries exactly the schema-declared top-level keys. -/
theorem claim_C10 :
    (∀ (fields extra : List (String × Json)),
      (∀ q ∈ extra, q.1 ∉ DiagnosticPlanKeys) →
      DiagnosticPlanSchema.safeParse (.obj (fields ++ extra)) =
        DiagnosticPlanSchema.safeParse (.obj fields)) ∧
    (∀ p : DiagnosticPlan, topLevelKeys p.toJson = DiagnosticPlanKeys) := by
  constructor
  · intro fields extra h
    have hk : ∀ k, k ∈ DiagnosticPlanKeys →
        getField (fields ++ extra) k = getField fields k := fun k hkmem =>
      getField_append_of_undeclared _ _ _ fun q hq he => (h q hq) (he ▸ hkmem)
    simp only [DiagnosticPlanSchema.safeParse]
    rw [hk "version" (by decide), hk "language" (by decide),
      hk "vehicle" (by decide), hk "concern" (by decide),
      hk "overview" (by decide), hk "disclaimers" (by decide),
      hk "safetyNotes" (by decide), hk "specs" (by decide),
      hk "steps" (by decide), hk "firstStepId" (by decide),
      hk "sessionId" (by decide)]
  · intro p
    rfl

/-- Witness for C10 on a concrete object carrying an undeclared key. -/
theorem claim_C10_witness :
    DiagnosticPlanSchema.safeParse
        (.obj ([("version", .str "1.0")] ++ [("extra", .str "zzz")])) =
      DiagnosticPlanSchema.safeParse (.obj [("version", .str "1.0")]) :=
  claim_C10.1 [("version", .str "1.0")] [("extra", .str "zzz")] (by decide)

theorem POST_first_ok (apiKey : Option String) (body : Json)
    (gen : String → String) (input : DiagnosticInput) (raw1 : String)
    (plan : DiagnosticPlan)
    (hkey : envKeySet apiKey = true)
    (hin : DiagnosticInputSchema.safeParse body = .ok input)
    (h1 : attemptOnce gen (buildPrompt input) = (raw1, .ok plan)) :
    POST apiKey body gen = (.ok plan, [buildPrompt input]) := by
  simp only [POST, hkey]
  rw [if_neg (show ¬ (true = false) from by decide)]
  simp only [hin, h1]

theorem POST_second_ok (apiKey : Option String) (body : Json)
    (gen : String → String) (input : DiagnosticInput) (raw1 raw2 : String)
    (e1 : JsError) (plan : DiagnosticPlan)
    (hkey : envKeySet apiKey = true)
    (hin : DiagnosticInputSchema.safeParse body = .ok input)
    (h1 : attemptOnce gen (buildPrompt input) = (raw1, .error e1))
    (h2 : attemptOnce gen (repairPrompt (buildPrompt input) e1) = (raw2, .ok plan)) :
    POST apiKey body gen =
      (.ok plan, [buildPrompt input, repairPrompt (buildPrompt input) e1]) := by
  simp only [POST, hkey]
  rw [if_neg (show ¬ (true = false) from by decide)]
  simp only [hin, h1, h2]

theorem POST_both_fail (apiKey : Option String) (body : Json)
    (gen : String → String) (input : DiagnosticInput) (raw1 raw2 : String)
    (e1 e2 : JsError)
    (hkey : envKeySet apiKey = true)
    (hin : DiagnosticInputSchema.safeParse body = .ok input)
    (h1 : attemptOnce gen (buildPrompt input) = (raw1, .error e1))
    (h2 : attemptOnce gen (repairPrompt (buildPrompt input) e1) = (raw2, .error e2)) :
    POST apiKey body gen =
      (.err 500 schemaFailError (some (zodErrToShortString e2)) (some raw2),
       [buildPrompt input, repairPrompt (buildPrompt input) e1]) := by
  simp only [POST, hkey]
  rw [if_neg (show ¬ (true = false) from by decide)]
  simp only [hin, h1, h2]

/-- C1: for every request that carries the credential and passes input
validation, the handler sends at most two prompts; when the first attempt
validates it returns the plan immediately after exactly one call; otherwise
it sends exactly one repair prompt and never a third, whatever the second
attempt produces. -/
theorem claim_C1 (apiKey : Option String) (body : Json) (gen : String → String)
    (input : DiagnosticInput)
    (hkey : envKeySet apiKey = true)
    (hin : DiagnosticInputSchema.safeParse body = .ok input) :
    (POST apiKey body gen).2.length ≤ 2 ∧
    (∀ plan, (attemptOnce gen (buildPrompt input)).2 = .ok plan →
      POST apiKey body gen = (.ok plan, [buildPrompt input])) ∧
    (∀ e1, (attemptOnce gen (buildPrompt input)).2 = .error e1 →
      (POST apiKey body gen).2 =
        [buildPrompt input, repairPrompt (buildPrompt input) e1]) := by
  refine ⟨?_, ?_, ?_⟩
  · rcases h1 : attemptOnce gen (buildPrompt input) with ⟨raw1, res1⟩
    cases res1 with
    | ok plan =>
      rw [POST_first_ok apiKey body gen input raw1 plan hkey hin h1]
      simp
    | error e1 =>
      rcases h2 : attemptOnce gen (repairPrompt (buildPrompt input) e1) with ⟨raw2, res2⟩
      cases res2 with
      | ok plan =>
        rw [POST_second_ok apiKey body gen input raw1 raw2 e1 plan hkey hin h1 h2]
        simp
      | error e2 =>
        rw [POST_both_fail apiKey body gen input raw1 raw2 e1 e2 hkey hin h1 h2]
        simp
  · intro plan hplan
    rcases h1 : attemptOnce gen (buildPrompt input) with ⟨raw1, res1⟩
    rw [h1] at hplan
    simp at hplan
    subst hplan
    exact POST_first_ok apiKey body gen input raw1 plan hkey hin h1
  · intro e1 he
    rcases h1 : attemptOnce gen (buildPrompt input) with ⟨raw1, res1⟩
    rw [h1] at he
    simp at he
    subst he
    rcases h2 : attemptOnce gen (repairPrompt (buildPrompt input) e1) with ⟨raw2, res2⟩
    cases res2 with
    | ok plan =>
      rw [POST_second_ok apiKey body gen input raw1 raw2 e1 plan hkey hin h1 h2]
    | error e2 =>
      rw [POST_both_fail apiKey body gen input raw1 raw2 e1 e2 hkey hin h1 h2]

/-- Witness for C1 on a concrete request whose first attempt validates. -/
theorem claim_C1_witness : (POST (some "k") hondaBody genOK).2.length ≤ 2 :=
  (claim_C1 (some "k") hondaBody genOK hondaInput (by decide) (by decide)).1

/-- C8, amended: for every valid request, when the first response parses
and validates against the output schema, the handler answers
`ok:true` with exactly that validated plan.  The schema itself does not
constrain `firstStepId` or the number of steps, so those properties of the
response hold exactly when the validated plan has them, as the
counterexample shows. -/
theorem claim_C8 (apiKey : Option String) (body : Json) (gen : String → String)
    (input : DiagnosticInput) (plan : DiagnosticPlan)
    (hkey : envKeySet apiKey = true)
    (hin : DiagnosticInputSchema.safeParse body = .ok input)
    (h1 : (attemptOnce gen (buildPrompt input)).2 = .ok plan) :
    (POST apiKey body gen).1 = .ok plan := by
  rcases he : attemptOnce gen (buildPrompt input) with ⟨raw1, res1⟩
  rw [he] at h1
  simp at h1
  subst h1
  rw [POST_first_ok apiKey body gen input raw1 plan hkey hin he]

/-- Counterexample to C8 as stated: a provider answer that is well-formed
JSON and satisfies the schema, but has an empty step list and a
`firstStepId` different from `step-1`; the handler still answers `ok:true`
with that plan, refuting the claimed `firstStepId` and step-count
properties. -/
theorem claim_C8_cex :
    (POST (some "k") hondaBody genOK).1 = .ok okPlan ∧
    ¬ (okPlan.firstStepId = "step-1" ∧ 5 ≤ okPlan.steps.length) :=
  ⟨by decide, by decide⟩

/-- Witness for C8 on the scenario-A request. -/
theorem claim_C8_witness : (POST (some "k") hondaBody genOK).1 = .ok okPlan :=
  claim_C8 (some "k") hondaBody genOK hondaInput okPlan (by decide) (by decide)
    (by decide)

/-- C2, amended: whenever both attempts fail (JSON parse error or schema
mismatch), the handler answers `ok:false` whose `raw` field is the raw
model text of the second attempt, and whose `detail` is the short rendering
of the last error: for a schema failure with a non-empty issue list this is
the first 8 issues as `path: message` joined by semicolons; for a parse
failure it is the stringified exception, as the counterexample shows. -/
theorem claim_C2 (apiKey : Option String) (body : Json) (gen : String → String)
    (input : DiagnosticInput) (raw1 raw2 : String) (e1 e2 : JsError)
    (hkey : envKeySet apiKey = true)
    (hin : DiagnosticInputSchema.safeParse body = .ok input)
    (h1 : attemptOnce gen (buildPrompt input) = (raw1, .error e1))
    (h2 : attemptOnce gen (repairPrompt (buildPrompt input) e1) = (raw2, .error e2)) :
    (POST apiKey body gen).1 =
      .err 500 schemaFailError (some (zodErrToShortString e2)) (some raw2) ∧
    (∀ issues, e2 = .zodError issues → issues ≠ [] →
      zodErrToShortString e2 =
        joinSep "; " ((issues.take 8).map fun i =>
          (if joinSep "." i.path = "" then "(root)" else joinSep "." i.path) ++
            ": " ++ i.message)) := by
  constructor
  · rw [POST_both_fail apiKey body gen input raw1 raw2 e1 e2 hkey hin h1 h2]
  · intro issues he hne
    subst he
    simp only [zodErrToShortString]
    rw [if_neg fun h0 => hne (List.length_eq_zero.mp h0)]

/-- Witness for C2 on a run whose two attempts both fail to parse. -/
theorem claim_C2_witness :
    (POST (some "k") hondaBody genBad).1 =
      .err 500 schemaFailError
        (some (zodErrToShortString (.parseError "Unexpected token")))
        (some "no json here at all") :=
  (claim_C2 (some "k") hondaBody genBad hondaInput "no json here at all"
    "no json here at all" (.parseError "Unexpected token")
    (.parseError "Unexpected token") (by decide) (by decide) (by decide)
    (by decide)).1

/-- Counterexample to C2 as stated: when both attempts fail with a JSON
parse error, the last error carries no validation issues at all, and the
`detail` field is the stringified `SyntaxError`, not a rendering of
validation issues (which, for an error carrying none, would be empty). -/
theorem claim_C2_cex :
    attemptOnce genBad (buildPrompt hondaInput) =
      ("no json here at all", .error (.parseError "Unexpected token")) ∧
    attemptOnce genBad
        (repairPrompt (buildPrompt hondaInput) (.parseError "Unexpected token")) =
      ("no json here at all", .error (.parseError "Unexpected token")) ∧
    (POST (some "k") hondaBody genBad).1 =
      .err 500 schemaFailError (some "SyntaxError: Unexpected token")
        (some "no json here at all") ∧
    (∀ issues : List ZodIssue,
      JsError.parseError "Unexpected token" ≠ .zodError issues) ∧
    "SyntaxError: Unexpected token" ≠ "" :=
  ⟨by decide, by decide, by decide,
   fun _ h => JsError.noConfusion h, by decide⟩

theorem mem_joinSep_infix (sep : String) (l : List String) (s : String)
    (hmem : s ∈ l) : s.data <:+: (joinSep sep l).data := by
  induction l with
  | nil => cases hmem
  | cons x xs ih =>
    rcases xs with _ | ⟨y, ys⟩
    · have hx : s = x := by simpa using hmem
      subst hx
      exact List.infix_rfl
    · rcases List.mem_cons.mp hmem with h | h
      · subst h
        simp only [joinSep, String.data_append]
        have h1 : s.data <+:
            s.data ++ sep.data ++ (joinSep sep (y :: ys)).data := by
          rw [List.append_assoc]
          exact List.prefix_append _ _
        exact h1.isInfix
      · have h2 := ih h
        simp only [joinSep, String.data_append]
        exact h2.trans (List.suffix_append _ _).isInfix

/-- C4, amended: whenever the first attempt fails output-schema validation,
the handler sends exactly one repair prompt, equal to the original prompt
followed by the rendered validation issues of the first failure (capped at
the first 8, as the counterexample shows) and the corrective instruction;
each of those rendered `path: message` strings occurs verbatim inside that
second prompt. -/
theorem claim_C4 (apiKey : Option String) (body : Json) (gen : String → String)
    (input : DiagnosticInput) (raw1 : String) (issues : List ZodIssue)
    (hkey : envKeySet apiKey = true)
    (hin : DiagnosticInputSchema.safeParse body = .ok input)
    (h1 : attemptOnce gen (buildPrompt input) = (raw1, .error (.zodError issues)))
    (hne : issues ≠ []) :
    (POST apiKey body gen).2 =
      [buildPrompt input, repairPrompt (buildPrompt input) (.zodError issues)] ∧
    repairPrompt (buildPrompt input) (.zodError issues) =
      buildPrompt input ++
        "\n\nYour previous JSON failed validation with these issues:\n" ++
        joinSep "; " ((issues.take 8).map fun i =>
          (if joinSep "." i.path = "" then "(root)" else joinSep "." i.path) ++
            ": " ++ i.message) ++
        "\n\nReturn ONLY corrected JSON that satisfies the structure exactly. Do not omit required keys." ∧
    (∀ i ∈ issues.take 8,
      ((if joinSep "." i.path = "" then "(root)" else joinSep "." i.path) ++
          ": " ++ i.message).data <:+:
        (repairPrompt (buildPrompt input) (.zodError issues)).data) := by
  have hshort : zodErrToShortString (.zodError issues) =
      joinSep "; " ((issues.take 8).map fun i =>
        (if joinSep "." i.path = "" then "(root)" else joinSep "." i.path) ++
          ": " ++ i.message) := by
    simp only [zodErrToShortString]
    rw [if_neg fun h0 => hne (List.length_eq_zero.mp h0)]
  refine ⟨?_, ?_, ?_⟩
  · rcases h2 : attemptOnce gen
        (repairPrompt (buildPrompt input) (.zodError issues)) with ⟨raw2, res2⟩
    cases res2 with
    | ok plan =>
      rw [POST_second_ok apiKey body gen input raw1 raw2 (.zodError issues)
        plan hkey hin h1 h2]
    | error e2 =>
      rw [POST_both_fail apiKey body gen input raw1 raw2 (.zodError issues)
        e2 hkey hin h1 h2]
  · simp only [repairPrompt, hshort]
  · intro i hi
    have hj : ((if joinSep "." i.path = "" then "(root)" else joinSep "." i.path) ++
          ": " ++ i.message).data <:+:
        (joinSep "; " ((issues.take 8).map fun i =>
          (if joinSep "." i.path = "" then "(root)" else joinSep "." i.path) ++
            ": " ++ i.message)).data :=
      mem_joinSep_infix _ _ _ (List.mem_map_of_mem _ hi)
    simp only [String.data_append, List.append_assoc] at hj
    simp only [repairPrompt, hshort, String.data_append, List.append_assoc]
    exact (hj.trans (List.infix_append'
        "\n\nYour previous JSON failed validation with these issues:\n".data _
        "\n\nReturn ONLY corrected JSON that satisfies the structure exactly. Do not omit required keys.".data)).trans
      ((List.suffix_append (buildPrompt input).data _).isInfix)

/-- Witness for C4: the first rendered issue of a run whose first response
is an empty object occurs verbatim in the repair prompt. -/
theorem claim_C4_witness :
    ((if joinSep "." (["version"] : List String) = "" then "(root)"
        else joinSep "." ["version"]) ++ ": " ++ "Required").data <:+:
      (repairPrompt (buildPrompt hondaInput) (.zodError elevenIssues)).data :=
  (claim_C4 (some "k") hondaBody genCurly hondaInput "\x7b\x7d" elevenIssues
      (by decide) (by decide) (by decide) (by decide)).2.2
    ⟨["version"], "Required"⟩ (by decide)

/-- Counterexample to C4 as stated: when the first failure carries more
than 8 issues (an empty JSON object yields 11), the rendered form of the
ninth and later issues is absent from the second prompt — here
`sessionId: Required` does not occur in it. -/
theorem claim_C4_cex :
    (attemptOnce genCurly (buildPrompt hondaInput)).2 =
      .error (.zodError elevenIssues) ∧
    (⟨["sessionId"], "Required"⟩ : ZodIssue) ∈ elevenIssues ∧
    (POST (some "k") hondaBody genCurly).2 =
      [buildPrompt hondaInput,
       repairPrompt (buildPrompt hondaInput) (.zodError elevenIssues)] ∧
    ¬ ("sessionId: Required".data <:+:
        (repairPrompt (buildPrompt hondaInput) (.zodError elevenIssues)).data) := by
  refine ⟨by decide, by decide, ?_, ?_⟩
  · rw [POST_both_fail (some "k") hondaBody genCurly hondaInput "\x7b\x7d"
      "\x7b\x7d" (.zodError elevenIssues) (.zodError elevenIssues)
      (by decide) (by decide) (by decide) (by decide)]
  · intro hinf
    have hc := (containsSub_iff _ _).mpr hinf
    have hf : containsSub "sessionId: Required".data
        (repairPrompt (buildPrompt hondaInput) (.zodError elevenIssues)).data =
          false := by decide
    rw [hf] at hc
    cases hc
